import Mathlib

/-!
Shallow embedding of the aiengdict word-lookup service core
(src/src/models.py, src/src/database.py, src/prompts.py, src/main.py),
together with theorems checking the specification's claims about it.

Modelling conventions:
* The relational store is a `DB` value: two lists of rows (`users`,
  `word_records`) in insertion order, plus the autoincrement counters.
* Timestamps are abstract `Nat` ticks supplied by the caller in place of
  `datetime.now(timezone.utc)`.
* Each store operation returns an `OpResult`: the committed store after the
  operation, the uncommitted session state the operation left behind
  (`none` when the session was committed or rolled back), and the Python
  return value.
* The possibility of an unexpected persistence exception at the
  `db.session.commit()` call is an explicit `commitFails : Bool` oracle
  argument; the branch taken when it is `true` embeds the `except` handler
  of the corresponding Python function.  The embedded functions are total,
  which models that no exception escapes the handler.
-/

namespace AiDict

/-- Embeds the `users` table row (src/src/models.py lines 15-34). -/
structure UserRow where
  id : Nat
  username : String
  email : String
  password_hash : String
  display_name : Option String
  is_active : Bool
  created_on : Nat
  last_login : Option Nat
deriving DecidableEq

/-- Embeds the `word_records` table row (src/src/models.py lines 62-95). -/
structure WordRecordRow where
  id : Nat
  word : String
  language : String
  definition : String
  query_times : Nat
  user_id : Option Nat
  created_on : Nat
  updated_on : Nat
deriving DecidableEq

/-- The relational store: both tables in storage (insertion) order plus the
autoincrement counters for the surrogate primary keys. -/
structure DB where
  users : List UserRow
  word_records : List WordRecordRow
  next_user_id : Nat
  next_word_record_id : Nat
deriving DecidableEq

/-- Result of one store operation: committed store, leftover uncommitted
session state (`none` when committed or rolled back), and the return value. -/
structure OpResult (α : Type) where
  committed : DB
  pending : Option DB
  value : α
deriving DecidableEq

/-- Replace the first element satisfying `p` by its image under `f`; embeds an
ORM in-place mutation of the row returned by `.first()`. -/
def updateFirst (p : α → Bool) (f : α → α) : List α → List α
  | [] => []
  | x :: xs => if p x then f x :: xs else x :: updateFirst p f xs

/-- Modelled external collaborator (werkzeug's `generate_password_hash`,
used at src/src/models.py line 41): abstracted as an injective tagged
encoding of the password. -/
def generate_password_hash (password : String) : String :=
  "hash$" ++ password

/-- Modelled external collaborator (werkzeug's `check_password_hash`, used at
src/src/models.py line 45): accepts exactly the password whose hash is
stored. -/
def check_password_hash (hash password : String) : Bool :=
  hash == generate_password_hash password

/-- Embeds `User.check_password` (src/src/models.py lines 43-45). -/
def UserRow.check_password (u : UserRow) (password : String) : Bool :=
  check_password_hash u.password_hash password

/-- Embeds `User.find_by_username` (src/src/models.py lines 51-54):
`filter_by(username=...).first()` over storage order. -/
def find_by_username (db : DB) (username : String) : Option UserRow :=
  db.users.find? (fun u => u.username == username)

/-- Embeds `User.find_by_email` (src/src/models.py lines 56-59). -/
def find_by_email (db : DB) (email : String) : Option UserRow :=
  db.users.find? (fun u => u.email == email)

/-- The row predicate of `filter_by(word=word, language=language,
user_id=user_id)` used by `WordRecord.find_or_create`
(src/src/models.py lines 108-110). -/
def matchesKey (word language : String) (user_id : Option Nat)
    (r : WordRecordRow) : Bool :=
  r.word == word && r.language == language && r.user_id == user_id

/-- Embeds `WordRecord.find_or_create` followed by `session.add` and a
successful `commit` (src/src/models.py lines 100-126, src/src/database.py
lines 52-54): if a row matches the (word, language, user_id) key, that row is
mutated in place (definition overwritten, `query_times` incremented,
`updated_on` refreshed); otherwise a fresh row with `query_times = 1` is
appended with the next autoincrement id. -/
def save_apply (db : DB) (now : Nat) (word language definition : String)
    (user_id : Option Nat) : DB :=
  match db.word_records.find? (matchesKey word language user_id) with
  | some _ =>
    { db with
      word_records :=
        updateFirst (matchesKey word language user_id)
          (fun r =>
            { r with
              definition := definition
              query_times := r.query_times + 1
              updated_on := now })
          db.word_records }
  | none =>
    { db with
      word_records :=
        db.word_records ++
          [{ id := db.next_word_record_id
             word := word
             language := language
             definition := definition
             query_times := 1
             user_id := user_id
             created_on := now
             updated_on := now }]
      next_word_record_id := db.next_word_record_id + 1 }

/-- Embeds `save_word_record` (src/src/database.py lines 36-59).  On a
persistence exception the `except` branch rolls the session back and returns
`False`; otherwise the upsert is committed and `True` is returned. -/
def save_word_record (db : DB) (now : Nat) (word language definition : String)
    (user_id : Option Nat) (commitFails : Bool) : OpResult Bool :=
  if commitFails then
    { committed := db, pending := none, value := false }
  else
    { committed := save_apply db now word language definition user_id
      pending := none
      value := true }

/-- One returned history entry (the dictionary built at src/src/database.py
lines 82-93). -/
structure HistoryEntry where
  word : String
  language : String
  query_times : Nat
  definition : String
  updated_on : String
deriving DecidableEq

/-- Embeds Python's `record.definition[:200] + "..."` truncation
(src/src/database.py lines 87-89); Python `len` and slicing count code
points, embedded via `String.data`. -/
def truncate_definition (d : String) : String :=
  if d.data.length > 200 then String.mk (d.data.take 200) ++ "..." else d

/-- Abstraction of `strftime("%Y-%m-%d %H:%M")` on the abstract `Nat` tick
(src/src/database.py line 90); the claims do not depend on the format. -/
def format_updated_on (t : Nat) : String :=
  toString t

/-- Descending comparison on `query_times`, the `order_by` key of
`get_query_history` (src/src/database.py line 81). -/
def query_times_desc (a b : WordRecordRow) : Bool :=
  b.query_times ≤ a.query_times

/-- The rows selected by `get_query_history`: filter on exactly the given
`user_id` (the anonymous `none` case included), sort by `query_times`
descending (ties in storage order), truncate to `limit`
(src/src/database.py lines 74-81). -/
def get_query_history_rows (db : DB) (limit : Nat) (user_id : Option Nat) :
    List WordRecordRow :=
  ((db.word_records.filter (fun r => r.user_id == user_id)).mergeSort
      query_times_desc).take limit

/-- Embeds one history entry built from a selected row
(src/src/database.py lines 83-91). -/
def toHistoryEntry (r : WordRecordRow) : HistoryEntry :=
  { word := r.word
    language := r.language
    query_times := r.query_times
    definition := truncate_definition r.definition
    updated_on := format_updated_on r.updated_on }

/-- Embeds `get_query_history` (src/src/database.py lines 62-96); a
persistence exception during the query yields the empty list, and the
operation never modifies the store. -/
def get_query_history (db : DB) (limit : Nat) (user_id : Option Nat)
    (queryFails : Bool) : OpResult (List HistoryEntry) :=
  if queryFails then
    { committed := db, pending := none, value := [] }
  else
    { committed := db
      pending := none
      value := (get_query_history_rows db limit user_id).map toHistoryEntry }

/-- Embeds `create_user` (src/src/database.py lines 99-134): duplicate
username checked first, duplicate email second; on a persistence exception
the session is rolled back and a generic failure message returned; otherwise
the new user (hashed password, active, fresh id) is appended and committed. -/
def create_user (db : DB) (now : Nat) (username email password : String)
    (display_name : Option String) (commitFails : Bool) :
    OpResult (Bool × String) :=
  if (find_by_username db username).isSome then
    { committed := db, pending := none, value := (false, "用戶名已存在") }
  else if (find_by_email db email).isSome then
    { committed := db, pending := none, value := (false, "電子郵件已被註冊") }
  else if commitFails then
    { committed := db, pending := none, value := (false, "註冊失敗，請稍後再試") }
  else
    { committed :=
        { db with
          users :=
            db.users ++
              [{ id := db.next_user_id
                 username := username
                 email := email
                 password_hash := generate_password_hash password
                 display_name := display_name
                 is_active := true
                 created_on := now
                 last_login := none }]
          next_user_id := db.next_user_id + 1 }
      pending := none
      value := (true, "註冊成功") }

/-- Embeds `authenticate_user` (src/src/database.py lines 137-171): lookup by
username first then email; failure messages in source order (existence, then
password, then active flag); on success `last_login` is set and committed.
The `except` branch (lines 169-171) contains no `rollback()`, so on a commit
exception the modified user stays pending in the session. -/
def authenticate_user (db : DB) (now : Nat) (identifier password : String)
    (commitFails : Bool) : OpResult (Option UserRow × String) :=
  let found :=
    match find_by_username db identifier with
    | some u => some u
    | none => find_by_email db identifier
  match found with
  | none => { committed := db, pending := none, value := (none, "用戶不存在") }
  | some u =>
    if u.check_password password then
      if u.is_active then
        let u' := { u with last_login := some now }
        let db' :=
          { db with
            users := updateFirst (fun v => v.id == u.id) (fun _ => u') db.users }
        if commitFails then
          { committed := db, pending := some db', value := (none, "登入失敗，請稍後再試") }
        else
          { committed := db', pending := none, value := (some u', "登入成功") }
      else
        { committed := db, pending := none, value := (none, "帳戶已被停用") }
    else
      { committed := db, pending := none, value := (none, "密碼錯誤") }

/-- Embeds `CHINESE_PROMPT` (src/prompts.py lines 6-12). -/
def CHINESE_PROMPT : String :=
  "請提供中文詞彙「{word}」的詳細解釋，包括：\n1. 英文翻譯\n2. 詞性\n3. 詳細定義\n4. 使用例句（中英對照）\n\n請以清晰易懂的格式回答。"

/-- Embeds `ENGLISH_PROMPT` (src/prompts.py lines 15-21). -/
def ENGLISH_PROMPT : String :=
  "Please provide a detailed explanation for the English word \"{word}\", including:\n1. Chinese translation\n2. Part of speech\n3. Detailed definition\n4. Example sentences (with Chinese translation)\n\nPlease format the response clearly."

/-- Embeds `CHINESE_PROMPT_DETAILED` (src/prompts.py lines 24-42). -/
def CHINESE_PROMPT_DETAILED : String :=
  "\n 將該單詞翻譯成英文。\n• 提供其英文翻譯的詞性 (例如: [noun], [verb], [adjective], [adverb] 等)。\n• 用簡單、基礎的英文單詞提供英文解釋，讓初學者能看懂。\n• 如果其英文翻譯是動詞，請提供常見的時態變化：原形 (base form)、過去式 (past tense)、過去分詞 (past participle)、現在分詞 (present participle) 和第三人稱單數 (third person singular)。\n• 列出3到5個常見的英文同義詞，詞性需與翻譯的英文單詞相同。\n• 提供三個使用該英文單詞的簡單例句 (選填，但有助於理解)。\n-\n輸出格式:\n【單詞】: [中文單詞]\n【英文翻譯】: [English Translation]\n【詞性】: [Part of Speech]\n【英文解釋】: [Simple English Definition]\n【時態變化】: [base form], [past tense], [past participle], [present participle], [third person singular] (僅在單詞為動詞時提供)\n【同義詞】: [Synonyms]\n【例句】: [Example Sentences] [Chinese Translation]\n-\n請提供中文詞彙「{word}」的詳細解釋\n"

/-- Embeds `ENGLISH_PROMPT_DETAILED` (src/prompts.py lines 44-66). -/
def ENGLISH_PROMPT_DETAILED : String :=
  "\nYou are an expert English-Traditional Chinese translation assistant. Follow the specific rules based on the input type:\n\nEnglish Word Translation and Explanation\n(When the input is a single English word)\n    • Translate the word into Traditional Chinese.\n    • Provide an English definition using only simple, common words that a basic English learner can understand.\n    • Identify the part of speech (e.g., [noun], [verb], [adjective], [adverb], etc.).\n    • If the word is a verb, provide common tense forms: base form, past tense, past participle, present participle, and third person singular.\n    • List 3 to 5 common English synonyms, matching the same part of speech.\n    • Provide three simple example sentence using the word in context (optional but encouraged for clarity).\n-\nOutput format:\n【Word】: [English Word]\n【詞性】: [Part of Speech]\n【中文翻譯】: [Traditional Chinese Translation]\n【英文解釋】: [Simple English Definition]\n【時態變化】: [base form], [past tense], [past participle], [present participle], [third person singular] （Only include if the word is a verb)\n【同義詞】: [Synonyms]\n【例句】: [Example Sentence] [Chinese Translation]\n-\nPlease provide a detailed explanation for the English word \"{word}\"\n"

/-- The nested dictionary of `get_prompt` (src/prompts.py lines 81-84),
embedded as an association list in source order. -/
def promptTable : List (String × List (String × String)) :=
  [("chinese",
     [("standard", CHINESE_PROMPT), ("detailed", CHINESE_PROMPT_DETAILED)]),
   ("english",
     [("standard", ENGLISH_PROMPT), ("detailed", ENGLISH_PROMPT_DETAILED)])]

/-- Embeds `get_prompt` (src/prompts.py lines 70-86):
`prompts.get(language, {}).get(style, CHINESE_PROMPT)`. -/
def get_prompt (language style : String) : String :=
  let inner :=
    match promptTable.find? (fun p => p.1 == language) with
    | some p => p.2
    | none => []
  match inner.find? (fun p => p.1 == style) with
  | some p => p.2
  | none => CHINESE_PROMPT

/-- Embeds `detect_language` (src/main.py lines 54-57): the regex
`[一-鿿]` searched over the text. -/
def detect_language (text : String) : String :=
  if text.data.any (fun c => 0x4e00 ≤ c.toNat && c.toNat ≤ 0x9fff) then
    "chinese"
  else
    "english"

/-- The module-level `PROMPT_STYLE` constant (src/main.py line 51). -/
def PROMPT_STYLE : String := "detailed"

/-- Embeds Python's `str.startswith` over code points. -/
def startswith (s pre : String) : Bool :=
  pre.data.isPrefixOf s.data

/-- Embeds Python's `str.strip()` over code points: drop leading and
trailing whitespace. -/
def strip (s : String) : String :=
  String.mk
    (((s.data.dropWhile Char.isWhitespace).reverse.dropWhile
        Char.isWhitespace).reverse)

/-- Embeds `get_word_definition` (src/main.py lines 60-70).  The external
Gemini call is an oracle `provider` from the formatted prompt to either the
response text or a failure description `e`; the `except` branch returns
the marked error string built from `f"查詢時發生錯誤: \x7bstr(e)\x7d"`. -/
def get_word_definition (word language : String)
    (provider : String → Except String String) : String :=
  let prompt := (get_prompt language PROMPT_STYLE).replace "{word}" word
  match provider prompt with
  | Except.ok text => text
  | Except.error e => "查詢時發生錯誤: " ++ e

/-- The JSON payload of a successful `/lookup` response
(src/main.py line 96). -/
structure LookupResponse where
  word : String
  language : String
  definition : String
deriving DecidableEq

/-- Embeds the `/lookup` route body `lookup_word` (src/main.py lines 79-96):
strip the word, reject the empty word, classify, fetch the definition, and
persist it via `save_word_record` exactly when it does not start with the
error marker.  Returns the store after the request and either the 400 error
message or the response payload. -/
def lookup_word (db : DB) (now : Nat) (rawWord : String)
    (user_id : Option Nat) (provider : String → Except String String)
    (commitFails : Bool) : DB × Except String LookupResponse :=
  let word := (strip rawWord)
  if word = "" then
    (db, Except.error "請輸入要查詢的單詞")
  else
    let language := detect_language word
    let definition := get_word_definition word language provider
    let db' :=
      if startswith definition "查詢時發生錯誤" then db
      else
        (save_word_record db now word language definition user_id
            commitFails).committed
    (db', Except.ok { word := word, language := language, definition := definition })

/-- Calls `save_word_record` `n` times in sequence on the same
(word, language, user_id) triple, with per-call definitions `defs i` and
clock ticks `times i`, every commit succeeding; returns the final store and
the list of returned booleans. -/
def save_n_times (db : DB) (word language : String) (user_id : Option Nat)
    (defs : Nat → String) (times : Nat → Nat) : Nat → DB × List Bool
  | 0 => (db, [])
  | n + 1 =>
    let prev := save_n_times db word language user_id defs times n
    let res :=
      save_word_record prev.1 (times n) word language (defs n) user_id false
    (res.committed, prev.2 ++ [res.value])

/-- An empty store, as created by `db.create_all()` on a fresh database. -/
def emptyDB : DB :=
  { users := [], word_records := [], next_user_id := 1, next_word_record_id := 1 }

/-- A sample active user used to evaluate the theorems on concrete input. -/
def aliceRow : UserRow :=
  { id := 1
    username := "alice"
    email := "alice@example.com"
    password_hash := generate_password_hash "pw123"
    display_name := none
    is_active := true
    created_on := 0
    last_login := none }

/-- A sample disabled user used to evaluate the theorems on concrete input. -/
def bobRow : UserRow :=
  { id := 2
    username := "bob"
    email := "bob@example.com"
    password_hash := generate_password_hash "pw123"
    display_name := none
    is_active := false
    created_on := 0
    last_login := none }

/-- A sample anonymous word record. -/
def helloAnonRow : WordRecordRow :=
  { id := 1
    word := "hello"
    language := "english"
    definition := "a greeting"
    query_times := 2
    user_id := none
    created_on := 0
    updated_on := 0 }

/-- A sample word record owned by the user with id 1. -/
def helloAliceRow : WordRecordRow :=
  { id := 2
    word := "hello"
    language := "english"
    definition := "hi"
    query_times := 5
    user_id := some 1
    created_on := 0
    updated_on := 0 }

/-- A sample populated store used to evaluate the theorems on concrete
input. -/
def sampleDB : DB :=
  { users := [aliceRow, bobRow]
    word_records := [helloAnonRow, helloAliceRow]
    next_user_id := 3
    next_word_record_id := 3 }

theorem find?_eq_filter_head {α : Type} (p : α → Bool) (l : List α) :
    l.find? p = (l.filter p).head? := by
  induction l with
  | nil => rfl
  | cons x xs ih =>
    by_cases h : p x
    · rw [List.find?_cons_of_pos _ h, List.filter_cons_of_pos h,
        List.head?_cons]
    · rw [List.find?_cons_of_neg _ h, List.filter_cons_of_neg h, ih]

theorem filter_updateFirst {α : Type} {p : α → Bool} {f : α → α}
    (hf : ∀ a, p (f a) = p a) (l : List α) :
    (updateFirst p f l).filter p =
      match l.filter p with
      | [] => []
      | r :: rest => f r :: rest := by
  induction l with
  | nil => rfl
  | cons x xs ih =>
    by_cases h : p x
    · simp [updateFirst, List.filter_cons, h, hf]
    · simp [updateFirst, List.filter_cons, h, ih]

theorem filter_updateFirst_disjoint {α : Type} {p q : α → Bool} {f : α → α}
    (hf : ∀ a, q (f a) = q a) (hpq : ∀ a, p a = true → q a = false)
    (l : List α) : (updateFirst p f l).filter q = l.filter q := by
  induction l with
  | nil => rfl
  | cons x xs ih =>
    by_cases h : p x
    · have hq : q x = false := hpq x h
      have hq' : q (f x) = false := (hf x).trans hq
      simp [updateFirst, List.filter_cons, h, hq, hq']
    · simp [updateFirst, List.filter_cons, h, ih]

theorem updateFirst_split {α : Type} {p : α → Bool} {f : α → α}
    {l : List α} {r : α} (h : l.find? p = some r) :
    ∃ l1 l2, l = l1 ++ r :: l2 ∧ (∀ x ∈ l1, p x = false) ∧
      updateFirst p f l = l1 ++ f r :: l2 := by
  induction l generalizing r with
  | nil => simp [List.find?] at h
  | cons x xs ih =>
    by_cases hx : p x
    · have hxr : x = r := by
        rw [List.find?_cons_of_pos _ hx] at h
        exact Option.some.inj h
      subst hxr
      refine ⟨[], xs, rfl, by simp, ?_⟩
      simp [updateFirst, hx]
    · have h' : xs.find? p = some r := by
        rwa [List.find?_cons_of_neg _ hx] at h
      obtain ⟨l1, l2, hl, hnone, hupd⟩ := ih h'
      refine ⟨x :: l1, l2, ?_, ?_, ?_⟩
      · simp [hl]
      · intro y hy
        rcases List.mem_cons.mp hy with hy | hy
        · subst hy; simpa using hx
        · exact hnone y hy
      · simp [updateFirst, hx, hupd]

theorem startswith_append (a b : String) : startswith (a ++ b) a = true := by
  simp [startswith, List.isPrefixOf_iff_prefix, String.data_append,
    List.prefix_append]

theorem get_prompt_inner_none (style : String) (hS : style ≠ "standard")
    (hS2 : style ≠ "detailed") (a b : String) :
    List.find? (fun p => p.1 == style) [("standard", a), ("detailed", b)] =
      none := by
  rw [List.find?_eq_none]
  rintro ⟨k, v⟩ hx
  simp only [List.mem_cons, List.not_mem_nil, or_false, Prod.mk.injEq] at hx
  rcases hx with ⟨hk, _⟩ | ⟨hk, _⟩
  · subst hk
    simp only [beq_iff_eq]
    exact fun h => hS h.symm
  · subst hk
    simp only [beq_iff_eq]
    exact fun h => hS2 h.symm

theorem get_prompt_outer_none (language : String) (hL : language ≠ "chinese")
    (hL2 : language ≠ "english") :
    promptTable.find? (fun p => p.1 == language) = none := by
  rw [List.find?_eq_none]
  rintro ⟨k, v⟩ hx
  simp only [promptTable, List.mem_cons, List.not_mem_nil, or_false,
    Prod.mk.injEq] at hx
  rcases hx with ⟨hk, _⟩ | ⟨hk, _⟩
  · subst hk
    simp only [beq_iff_eq]
    exact fun h => hL h.symm
  · subst hk
    simp only [beq_iff_eq]
    exact fun h => hL2 h.symm

theorem get_prompt_chinese_fallback (style : String) (hS : style ≠ "standard")
    (hS2 : style ≠ "detailed") : get_prompt "chinese" style = CHINESE_PROMPT := by
  show (match List.find? (fun p => p.1 == style)
      [("standard", CHINESE_PROMPT), ("detailed", CHINESE_PROMPT_DETAILED)] with
    | some p => p.2
    | none => CHINESE_PROMPT) = CHINESE_PROMPT
  rw [get_prompt_inner_none style hS hS2]

theorem get_prompt_english_fallback (style : String) (hS : style ≠ "standard")
    (hS2 : style ≠ "detailed") : get_prompt "english" style = CHINESE_PROMPT := by
  show (match List.find? (fun p => p.1 == style)
      [("standard", ENGLISH_PROMPT), ("detailed", ENGLISH_PROMPT_DETAILED)] with
    | some p => p.2
    | none => CHINESE_PROMPT) = CHINESE_PROMPT
  rw [get_prompt_inner_none style hS hS2]

theorem get_prompt_unknown_language (language style : String)
    (hL : language ≠ "chinese") (hL2 : language ≠ "english") :
    get_prompt language style = CHINESE_PROMPT := by
  unfold get_prompt
  rw [get_prompt_outer_none language hL hL2]
  rfl

/-- C4: `get_prompt` is total over all (language, style) pairs: it always
returns one of the four known templates, returning the combination's own
template for the four recognized pairs and falling back to the
Chinese-standard template whenever the language or the style (or both) is
unrecognized — including a recognized language with an unrecognized style. -/
theorem c4_get_prompt_total (language style : String) :
    (get_prompt language style = CHINESE_PROMPT ∨
     get_prompt language style = CHINESE_PROMPT_DETAILED ∨
     get_prompt language style = ENGLISH_PROMPT ∨
     get_prompt language style = ENGLISH_PROMPT_DETAILED) ∧
    get_prompt language style =
      (if language = "chinese" then
        if style = "standard" then CHINESE_PROMPT
        else if style = "detailed" then CHINESE_PROMPT_DETAILED
        else CHINESE_PROMPT
      else if language = "english" then
        if style = "standard" then ENGLISH_PROMPT
        else if style = "detailed" then ENGLISH_PROMPT_DETAILED
        else CHINESE_PROMPT
      else CHINESE_PROMPT) := by
  have key : get_prompt language style =
      (if language = "chinese" then
        if style = "standard" then CHINESE_PROMPT
        else if style = "detailed" then CHINESE_PROMPT_DETAILED
        else CHINESE_PROMPT
      else if language = "english" then
        if style = "standard" then ENGLISH_PROMPT
        else if style = "detailed" then ENGLISH_PROMPT_DETAILED
        else CHINESE_PROMPT
      else CHINESE_PROMPT) := by
    by_cases hL : language = "chinese"
    · subst hL
      by_cases hS : style = "standard"
      · subst hS; rfl
      · by_cases hS2 : style = "detailed"
        · subst hS2; rfl
        · rw [get_prompt_chinese_fallback style hS hS2, if_pos rfl,
            if_neg hS, if_neg hS2]
    · by_cases hL2 : language = "english"
      · subst hL2
        by_cases hS : style = "standard"
        · subst hS; rfl
        · by_cases hS2 : style = "detailed"
          · subst hS2; rfl
          · rw [get_prompt_english_fallback style hS hS2, if_neg hL,
              if_pos rfl, if_neg hS, if_neg hS2]
      · rw [get_prompt_unknown_language language style hL hL2, if_neg hL,
          if_neg hL2]
  refine ⟨?_, key⟩
  rw [key]
  split_ifs <;> simp

/-- C9: `detect_language` is total and classifies a string as "chinese"
exactly when it contains a code point in U+4E00-U+9FFF, and as "english"
exactly when it contains none (in particular for empty, whitespace-only,
digit-only and punctuation-only input). -/
theorem c9_detect_language_classifier (text : String) :
    (detect_language text = "chinese" ∨ detect_language text = "english") ∧
    (detect_language text = "chinese" ↔
      ∃ c ∈ text.data, 0x4e00 ≤ c.toNat ∧ c.toNat ≤ 0x9fff) ∧
    (detect_language text = "english" ↔
      ∀ c ∈ text.data, ¬(0x4e00 ≤ c.toNat ∧ c.toNat ≤ 0x9fff)) := by
  unfold detect_language
  by_cases h : text.data.any (fun c => 0x4e00 ≤ c.toNat && c.toNat ≤ 0x9fff) = true
  · rw [if_pos h]
    simp only [List.any_eq_true, Bool.and_eq_true, decide_eq_true_eq] at h
    refine ⟨Or.inl rfl, ⟨fun _ => h, fun _ => rfl⟩, ?_, ?_⟩
    · intro hc; exact absurd hc (by decide)
    · intro hall
      obtain ⟨c, hc, h1, h2⟩ := h
      exact absurd ⟨h1, h2⟩ (hall c hc)
  · rw [if_neg h]
    simp only [List.any_eq_true, Bool.and_eq_true, decide_eq_true_eq] at h
    have hall : ∀ c ∈ text.data, ¬(0x4e00 ≤ c.toNat ∧ c.toNat ≤ 0x9fff) :=
      fun c hc hcc => h ⟨c, hc, hcc⟩
    refine ⟨Or.inr rfl, ⟨?_, ?_⟩, fun _ => hall, fun _ => rfl⟩
    · intro hc; exact absurd hc (by decide)
    · intro hex
      obtain ⟨c, hc, h1, h2⟩ := hex
      exact absurd ⟨h1, h2⟩ (hall c hc)

/-- C7: `create_user` rejects a duplicate username first with message
"用戶名已存在", and a fresh username with a duplicate email second with message
"電子郵件已被註冊"; in both failure cases the committed store is unchanged and
the session holds nothing pending. -/
theorem c7_create_user_duplicate_rejection (db : DB) (now : Nat)
    (username email password : String) (dn : Option String) (cf : Bool) :
    ((∃ u ∈ db.users, u.username = username) →
      create_user db now username email password dn cf =
        ⟨db, none, (false, "用戶名已存在")⟩) ∧
    ((∀ u ∈ db.users, u.username ≠ username) →
      (∃ u ∈ db.users, u.email = email) →
      create_user db now username email password dn cf =
        ⟨db, none, (false, "電子郵件已被註冊")⟩) := by
  constructor
  · intro h
    have h1 : (find_by_username db username).isSome = true := by
      rw [find_by_username, List.find?_isSome]
      obtain ⟨u, hu, he⟩ := h
      exact ⟨u, hu, by simp [he]⟩
    simp [create_user, h1]
  · intro hne h
    have h1 : find_by_username db username = none := by
      rw [find_by_username, List.find?_eq_none]
      intro u hu
      simp [beq_iff_eq]
      exact hne u hu
    have h2 : (find_by_email db email).isSome = true := by
      rw [find_by_email, List.find?_isSome]
      obtain ⟨u, hu, he⟩ := h
      exact ⟨u, hu, by simp [he]⟩
    simp [create_user, h1, h2]

/-- C7 witness: registering "alice" again fails with the duplicate-username
message, and registering a fresh username with alice's email fails with the
duplicate-email message, both leaving the sample store unchanged. -/
theorem c7_create_user_duplicate_rejection_witness :
    create_user sampleDB 9 "alice" "new@example.com" "secret" none false =
      ⟨sampleDB, none, (false, "用戶名已存在")⟩ ∧
    create_user sampleDB 9 "carol" "alice@example.com" "secret" none false =
      ⟨sampleDB, none, (false, "電子郵件已被註冊")⟩ := by
  constructor
  · exact (c7_create_user_duplicate_rejection sampleDB 9 "alice"
      "new@example.com" "secret" none false).1 ⟨aliceRow, by decide, by decide⟩
  · exact (c7_create_user_duplicate_rejection sampleDB 9 "carol"
      "alice@example.com" "secret" none false).2 (by decide)
      ⟨aliceRow, by decide, by decide⟩

/-- C8 counterexample: for the disabled user "bob" with a wrong password,
`authenticate_user` returns the password-mismatch message, not the
account-disabled message the claim requires regardless of password
correctness. -/
theorem c8_counterexample_wrong_password_on_disabled :
    (authenticate_user sampleDB 7 "bob" "wrongpw" false).value =
      ((none : Option UserRow), "密碼錯誤") ∧
    ((none : Option UserRow), "密碼錯誤") ≠
      ((none : Option UserRow), "帳戶已被停用") := by
  exact ⟨by decide, by decide⟩

/-- C8 (amended): for a user found by username-or-email whose active flag is
false, `authenticate_user` returns the none-user with the account-disabled
message when the password is correct, and the none-user with the
password-mismatch message when it is incorrect (the password is checked
before the active flag); in both cases the store is unchanged. -/
theorem c8_amended_disabled_account (db : DB) (now : Nat)
    (identifier password : String) (u : UserRow) (cf : Bool)
    (hu : find_by_username db identifier = some u ∨
      (find_by_username db identifier = none ∧
        find_by_email db identifier = some u))
    (hin : u.is_active = false) :
    (u.check_password password = true →
      authenticate_user db now identifier password cf =
        ⟨db, none, (none, "帳戶已被停用")⟩) ∧
    (u.check_password password = false →
      authenticate_user db now identifier password cf =
        ⟨db, none, (none, "密碼錯誤")⟩) := by
  rcases hu with h | ⟨h1, h2⟩
  · constructor <;> intro hpw <;> simp [authenticate_user, h, hpw, hin]
  · constructor <;> intro hpw <;> simp [authenticate_user, h1, h2, hpw, hin]

/-- C8 witness: on the sample store, the disabled user "bob" with the correct
password gets the account-disabled message. -/
theorem c8_amended_disabled_account_witness :
    authenticate_user sampleDB 7 "bob" "pw123" false =
      ⟨sampleDB, none, (none, "帳戶已被停用")⟩ := by
  exact (c8_amended_disabled_account sampleDB 7 "bob" "pw123" bobRow false
    (Or.inl (by decide)) (by decide)).1 (by decide)

theorem save_n_times_zero_fst (db : DB) (w l : String) (u : Option Nat)
    (defs : Nat → String) (times : Nat → Nat) :
    (save_n_times db w l u defs times 0).1 = db := rfl

theorem save_n_times_zero_snd (db : DB) (w l : String) (u : Option Nat)
    (defs : Nat → String) (times : Nat → Nat) :
    (save_n_times db w l u defs times 0).2 = [] := rfl

theorem save_n_times_succ_fst (db : DB) (w l : String) (u : Option Nat)
    (defs : Nat → String) (times : Nat → Nat) (n : Nat) :
    (save_n_times db w l u defs times (n + 1)).1 =
      save_apply (save_n_times db w l u defs times n).1 (times n) w l (defs n)
        u := rfl

theorem save_n_times_succ_snd (db : DB) (w l : String) (u : Option Nat)
    (defs : Nat → String) (times : Nat → Nat) (n : Nat) :
    (save_n_times db w l u defs times (n + 1)).2 =
      (save_n_times db w l u defs times n).2 ++ [true] := rfl

/-- C1: starting from a store holding no row for the (word, language,
user_id) triple, n+1 successive successful `save_word_record` calls leave
exactly one row for the triple — carrying `query_times` equal to the number
of calls, the definition passed to the last call, the first call's creation
timestamp and the last call's updated timestamp — and every call returns
`true`. -/
theorem c1_save_word_record_repeat_upsert (db : DB) (word language : String)
    (user_id : Option Nat) (defs : Nat → String) (times : Nat → Nat) (n : Nat)
    (h0 : db.word_records.filter (matchesKey word language user_id) = []) :
    (save_n_times db word language user_id defs times
          (n + 1)).1.word_records.filter (matchesKey word language user_id) =
      [{ id := db.next_word_record_id
         word := word
         language := language
         definition := defs n
         query_times := n + 1
         user_id := user_id
         created_on := times 0
         updated_on := times n }] ∧
    (save_n_times db word language user_id defs times (n + 1)).2 =
      List.replicate (n + 1) true := by
  induction n with
  | zero =>
    have hfind : db.word_records.find? (matchesKey word language user_id) =
        none := by
      rw [find?_eq_filter_head, h0]
      rfl
    refine ⟨?_, rfl⟩
    rw [save_n_times_succ_fst, save_n_times_zero_fst]
    simp only [save_apply, hfind]
    rw [List.filter_append, h0]
    simp [matchesKey]
  | succ m ih =>
    obtain ⟨ih1, ih2⟩ := ih
    have hfind : (save_n_times db word language user_id defs times
        (m + 1)).1.word_records.find? (matchesKey word language user_id) =
        some { id := db.next_word_record_id
               word := word
               language := language
               definition := defs m
               query_times := m + 1
               user_id := user_id
               created_on := times 0
               updated_on := times m } := by
      rw [find?_eq_filter_head, ih1]
      rfl
    constructor
    · rw [save_n_times_succ_fst]
      simp only [save_apply, hfind]
      have hupd := filter_updateFirst
        (p := matchesKey word language user_id)
        (f := fun r : WordRecordRow =>
          { r with
            definition := defs (m + 1)
            query_times := r.query_times + 1
            updated_on := times (m + 1) })
        (fun a => rfl)
        ((save_n_times db word language user_id defs times (m + 1)).1.word_records)
      rw [hupd, ih1]
    · rw [save_n_times_succ_snd, ih2, ← List.replicate_succ']

/-- C1 witness: two successful saves of "hi" into the empty store leave one
row with query_times 2 and the second call's definition, both calls
returning true. -/
theorem c1_save_word_record_repeat_upsert_witness :
    (save_n_times emptyDB "hi" "english" none (fun i => toString i)
          (fun i => i) 2).1.word_records.filter
        (matchesKey "hi" "english" none) =
      [{ id := emptyDB.next_word_record_id
         word := "hi"
         language := "english"
         definition := toString 1
         query_times := 2
         user_id := none
         created_on := 0
         updated_on := 1 }] ∧
    (save_n_times emptyDB "hi" "english" none (fun i => toString i)
        (fun i => i) 2).2 = List.replicate 2 true := by
  exact c1_save_word_record_repeat_upsert emptyDB "hi" "english" none
    (fun i => toString i) (fun i => i) 1 rfl

/-- C2: rows are keyed by the full (word, language, user_id) triple with the
null user as its own key value: a save under one user_id leaves the rows of
the same word and language under any other user_id (null included) exactly as
they were; a save preserves the at-most-one-row-per-triple invariant for its
own key; and `get_query_history` for a given user_id only returns entries
built from rows stored under exactly that user_id. -/
theorem c2_triple_key_isolation (db : DB) (now : Nat)
    (word language definition : String) (u u' : Option Nat) (limit : Nat)
    (hne : u ≠ u') :
    (save_word_record db now word language definition u
          false).committed.word_records.filter (matchesKey word language u') =
      db.word_records.filter (matchesKey word language u') ∧
    ((db.word_records.filter (matchesKey word language u)).length ≤ 1 →
      ((save_word_record db now word language definition u
            false).committed.word_records.filter
          (matchesKey word language u)).length ≤ 1) ∧
    (∀ e ∈ (get_query_history db limit u false).value,
      ∃ r ∈ db.word_records, r.user_id = u ∧ e = toHistoryEntry r) := by
  have hred : (save_word_record db now word language definition u
      false).committed = save_apply db now word language definition u := rfl
  refine ⟨?_, ?_, ?_⟩
  · rw [hred]
    rcases hfind : db.word_records.find? (matchesKey word language u) with _ | r
    · simp only [save_apply, hfind]
      rw [List.filter_append]
      have hnew : matchesKey word language u'
          { id := db.next_word_record_id
            word := word
            language := language
            definition := definition
            query_times := 1
            user_id := u
            created_on := now
            updated_on := now } = false := by
        simp [matchesKey, hne]
      simp [List.filter_cons, hnew]
    · simp only [save_apply, hfind]
      exact filter_updateFirst_disjoint
        (p := matchesKey word language u)
        (q := matchesKey word language u')
        (f := fun a : WordRecordRow =>
          { a with
            definition := definition
            query_times := a.query_times + 1
            updated_on := now })
        (fun a => rfl)
        (fun a ha => by
          have h1 : (a.user_id == u') = false := by
            simp only [matchesKey, Bool.and_eq_true, beq_iff_eq] at ha
            rw [beq_eq_false_iff_ne, ha.2]
            exact hne
          simp [matchesKey, h1])
        db.word_records
  · intro hlen
    rw [hred]
    rcases hfind : db.word_records.find? (matchesKey word language u) with _ | r
    · have hempty : db.word_records.filter (matchesKey word language u) = [] := by
        have := hfind
        rw [find?_eq_filter_head] at this
        exact List.head?_eq_none_iff.mp this
      simp only [save_apply, hfind]
      rw [List.filter_append, hempty]
      simp [matchesKey]
    · have hupd := filter_updateFirst
        (p := matchesKey word language u)
        (f := fun a : WordRecordRow =>
          { a with
            definition := definition
            query_times := a.query_times + 1
            updated_on := now })
        (fun a => rfl) db.word_records
      simp only [save_apply, hfind]
      rw [hupd]
      cases hcase : db.word_records.filter (matchesKey word language u) with
      | nil => simp
      | cons x xs =>
        rw [hcase] at hlen
        simpa using hlen
  · intro e he
    have hval : (get_query_history db limit u false).value =
        (get_query_history_rows db limit u).map toHistoryEntry := rfl
    rw [hval] at he
    obtain ⟨r, hr, hre⟩ := List.mem_map.mp he
    have hr2 : r ∈ (db.word_records.filter
        (fun x => x.user_id == u)).mergeSort query_times_desc :=
      List.take_subset _ _ hr
    have hr3 : r ∈ db.word_records.filter (fun x => x.user_id == u) :=
      (List.mergeSort_perm _ _).mem_iff.mp hr2
    obtain ⟨hr4, hr5⟩ := List.mem_filter.mp hr3
    exact ⟨r, hr4, by simpa [beq_iff_eq] using hr5, hre.symm⟩

/-- C2 witness: on the sample store, saving "hello" for user 1 leaves the
anonymous "hello" row untouched, and the anonymous history of the sample
store only contains entries from anonymous rows. -/
theorem c2_triple_key_isolation_witness :
    (save_word_record sampleDB 9 "hello" "english" "updated" (some 1)
          false).committed.word_records.filter
        (matchesKey "hello" "english" none) =
      sampleDB.word_records.filter (matchesKey "hello" "english" none) ∧
    ((save_word_record sampleDB 9 "hello" "english" "updated" (some 1)
          false).committed.word_records.filter
        (matchesKey "hello" "english" (some 1))).length ≤ 1 := by
  have h := c2_triple_key_isolation sampleDB 9 "hello" "english" "updated"
    (some 1) none 20 (by decide)
  exact ⟨h.1, h.2.1 (by decide)⟩

/-- C10: when the (word, language, user_id) triple already has a row,
`save_word_record` rewrites only that row's definition, query_times and
updated timestamp — its id, word, language, user reference and creation
timestamp are preserved — and every other word record, the users relation
and both id counters are left untouched. -/
theorem c10_update_frame (db : DB) (now : Nat)
    (word language definition : String) (u : Option Nat) (r : WordRecordRow)
    (h : db.word_records.find? (matchesKey word language u) = some r) :
    ∃ l1 l2,
      db.word_records = l1 ++ r :: l2 ∧
      (save_word_record db now word language definition u
          false).committed.word_records =
        l1 ++
          { r with
            definition := definition
            query_times := r.query_times + 1
            updated_on := now } :: l2 ∧
      ({ r with
          definition := definition
          query_times := r.query_times + 1
          updated_on := now } : WordRecordRow).id = r.id ∧
      ({ r with
          definition := definition
          query_times := r.query_times + 1
          updated_on := now } : WordRecordRow).word = r.word ∧
      ({ r with
          definition := definition
          query_times := r.query_times + 1
          updated_on := now } : WordRecordRow).language = r.language ∧
      ({ r with
          definition := definition
          query_times := r.query_times + 1
          updated_on := now } : WordRecordRow).user_id = r.user_id ∧
      ({ r with
          definition := definition
          query_times := r.query_times + 1
          updated_on := now } : WordRecordRow).created_on = r.created_on ∧
      (save_word_record db now word language definition u
          false).committed.users = db.users ∧
      (save_word_record db now word language definition u
          false).committed.next_user_id = db.next_user_id ∧
      (save_word_record db now word language definition u
          false).committed.next_word_record_id = db.next_word_record_id := by
  have hred : (save_word_record db now word language definition u
      false).committed = save_apply db now word language definition u := rfl
  obtain ⟨l1, l2, hsplit, hnone, hupd⟩ := updateFirst_split
    (f := fun a : WordRecordRow =>
      { a with
        definition := definition
        query_times := a.query_times + 1
        updated_on := now }) h
  refine ⟨l1, l2, hsplit, ?_, rfl, rfl, rfl, rfl, rfl, ?_, ?_, ?_⟩
  · rw [hred]
    simp only [save_apply, h]
    exact hupd
  · rw [hred]
    simp only [save_apply, h]
  · rw [hred]
    simp only [save_apply, h]
  · rw [hred]
    simp only [save_apply, h]

/-- C10 witness: updating the existing anonymous "hello" row of the sample
store changes only that row in place and leaves users and counters as they
were. -/
theorem c10_update_frame_witness :
    ∃ l1 l2,
      sampleDB.word_records = l1 ++ helloAnonRow :: l2 ∧
      (save_word_record sampleDB 9 "hello" "english" "a fresh definition" none
          false).committed.word_records =
        l1 ++
          { helloAnonRow with
            definition := "a fresh definition"
            query_times := helloAnonRow.query_times + 1
            updated_on := 9 } :: l2 ∧
      ({ helloAnonRow with
          definition := "a fresh definition"
          query_times := helloAnonRow.query_times + 1
          updated_on := 9 } : WordRecordRow).id = helloAnonRow.id ∧
      ({ helloAnonRow with
          definition := "a fresh definition"
          query_times := helloAnonRow.query_times + 1
          updated_on := 9 } : WordRecordRow).word = helloAnonRow.word ∧
      ({ helloAnonRow with
          definition := "a fresh definition"
          query_times := helloAnonRow.query_times + 1
          updated_on := 9 } : WordRecordRow).language = helloAnonRow.language ∧
      ({ helloAnonRow with
          definition := "a fresh definition"
          query_times := helloAnonRow.query_times + 1
          updated_on := 9 } : WordRecordRow).user_id = helloAnonRow.user_id ∧
      ({ helloAnonRow with
          definition := "a fresh definition"
          query_times := helloAnonRow.query_times + 1
          updated_on := 9 } : WordRecordRow).created_on =
        helloAnonRow.created_on ∧
      (save_word_record sampleDB 9 "hello" "english" "a fresh definition" none
          false).committed.users = sampleDB.users ∧
      (save_word_record sampleDB 9 "hello" "english" "a fresh definition" none
          false).committed.next_user_id = sampleDB.next_user_id ∧
      (save_word_record sampleDB 9 "hello" "english" "a fresh definition" none
          false).committed.next_word_record_id =
        sampleDB.next_word_record_id := by
  exact c10_update_frame sampleDB 9 "hello" "english" "a fresh definition"
    none helloAnonRow (by decide)

/-- C3: `get_query_history` returns at most `limit` entries, ordered by
query_times descending; every entry is built from a stored row with exactly
the requested user_id, its definition truncated to the first 200 code points
plus an ellipsis when longer than 200 and returned unmodified otherwise; and
when the number of matching rows does not exceed the limit, every matching
row contributes its entry. -/
theorem c3_history_order_limit_truncation (db : DB) (limit : Nat)
    (user_id : Option Nat) :
    (get_query_history db limit user_id false).value.length ≤ limit ∧
    List.Pairwise (fun a b => b.query_times ≤ a.query_times)
      (get_query_history db limit user_id false).value ∧
    (∀ e ∈ (get_query_history db limit user_id false).value,
      ∃ r ∈ db.word_records, r.user_id = user_id ∧
        e.word = r.word ∧ e.language = r.language ∧
        e.query_times = r.query_times ∧
        e.definition = truncate_definition r.definition) ∧
    (∀ d : String, d.data.length ≤ 200 → truncate_definition d = d) ∧
    (∀ d : String, 200 < d.data.length →
      (truncate_definition d).data = d.data.take 200 ++ "...".data) ∧
    ((db.word_records.filter (fun r => r.user_id == user_id)).length ≤ limit →
      ∀ r ∈ db.word_records, r.user_id = user_id →
        toHistoryEntry r ∈ (get_query_history db limit user_id false).value) := by
  have hval : (get_query_history db limit user_id false).value =
      List.map toHistoryEntry
        (((db.word_records.filter
              (fun r : WordRecordRow => r.user_id == user_id)).mergeSort
            query_times_desc).take limit) := rfl
  refine ⟨?_, ?_, ?_, ?_, ?_, ?_⟩
  · rw [hval, List.length_map]
    exact List.length_take_le _ _
  · rw [hval, List.pairwise_map]
    have hsorted := @List.sorted_mergeSort WordRecordRow query_times_desc
      (fun a b c hab hbc => by
        simp only [query_times_desc, decide_eq_true_eq] at hab hbc ⊢
        exact hbc.trans hab)
      (fun a b => by
        simpa [query_times_desc, Bool.or_eq_true, decide_eq_true_eq] using
          le_total b.query_times a.query_times)
      (db.word_records.filter (fun r => r.user_id == user_id))
    have htake := List.Pairwise.sublist
      (List.take_sublist limit
        ((db.word_records.filter (fun r => r.user_id == user_id)).mergeSort
          query_times_desc))
      hsorted
    exact htake.imp (fun hab => by
      simpa [query_times_desc, decide_eq_true_eq] using hab)
  · intro e he
    rw [hval] at he
    obtain ⟨r, hr, hre⟩ := List.mem_map.mp he
    have hr2 : r ∈ (db.word_records.filter
        (fun x => x.user_id == user_id)).mergeSort query_times_desc :=
      List.take_subset _ _ hr
    have hr3 : r ∈ db.word_records.filter (fun x => x.user_id == user_id) :=
      (List.mergeSort_perm _ _).mem_iff.mp hr2
    obtain ⟨hr4, hr5⟩ := List.mem_filter.mp hr3
    subst hre
    exact ⟨r, hr4, by simpa [beq_iff_eq] using hr5, rfl, rfl, rfl, rfl⟩
  · intro d hd
    rw [truncate_definition, if_neg (by omega)]
  · intro d hd
    rw [truncate_definition, if_pos (by omega), String.data_append]
  · intro hlen r hr hru
    have hfull : ((db.word_records.filter
        (fun x => x.user_id == user_id)).mergeSort query_times_desc).take
          limit =
        (db.word_records.filter (fun x => x.user_id == user_id)).mergeSort
          query_times_desc :=
      List.take_of_length_le (by
        rw [(List.mergeSort_perm _ _).length_eq]
        exact hlen)
    rw [hval, hfull]
    exact List.mem_map_of_mem _
      ((List.mergeSort_perm _ _).mem_iff.mpr
        (List.mem_filter.mpr ⟨hr, by simp [hru]⟩))

/-- C3 witness: the anonymous history of the sample store has at most 20
entries and contains the entry of the anonymous "hello" row. -/
theorem c3_history_order_limit_truncation_witness :
    (get_query_history sampleDB 20 none false).value.length ≤ 20 ∧
    toHistoryEntry helloAnonRow ∈
      (get_query_history sampleDB 20 none false).value := by
  have h := c3_history_order_limit_truncation sampleDB 20 none
  exact ⟨h.1, h.2.2.2.2.2 (by decide) helloAnonRow (by decide) rfl⟩

/-- C5: when the definition provider fails with description e for a nonempty
word, the lookup responds with definition "查詢時發生錯誤: " ++ e — which starts
with the fixed error marker — and leaves the store unchanged; in general a
lookup persists its definition through `save_word_record` exactly when the
definition does not start with the marker. -/
theorem c5_provider_failure_not_persisted (db : DB) (now : Nat)
    (rawWord : String) (user_id : Option Nat)
    (provider : String → Except String String) (commitFails : Bool)
    (e : String) (hw : (strip rawWord) ≠ "") :
    (provider ((get_prompt (detect_language (strip rawWord))
          PROMPT_STYLE).replace "{word}" (strip rawWord)) = Except.error e →
      (lookup_word db now rawWord user_id provider commitFails).2 =
        Except.ok
          { word := (strip rawWord)
            language := detect_language (strip rawWord)
            definition := "查詢時發生錯誤: " ++ e } ∧
      startswith ("查詢時發生錯誤: " ++ e) "查詢時發生錯誤" = true ∧
      (lookup_word db now rawWord user_id provider commitFails).1 = db) ∧
    (startswith
        (get_word_definition (strip rawWord) (detect_language (strip rawWord))
          provider) "查詢時發生錯誤" = true →
      (lookup_word db now rawWord user_id provider commitFails).1 = db) ∧
    (startswith
        (get_word_definition (strip rawWord) (detect_language (strip rawWord))
          provider) "查詢時發生錯誤" = false →
      (lookup_word db now rawWord user_id provider commitFails).1 =
        (save_word_record db now (strip rawWord)
            (detect_language (strip rawWord))
            (get_word_definition (strip rawWord) (detect_language (strip rawWord))
              provider)
            user_id commitFails).committed) := by
  have hsplit : ("查詢時發生錯誤: " : String) = "查詢時發生錯誤" ++ ": " := by decide
  have hstart : ∀ s : String,
      startswith ("查詢時發生錯誤: " ++ s) "查詢時發生錯誤" = true := by
    intro s
    rw [hsplit, String.append_assoc]
    exact startswith_append _ _
  refine ⟨?_, ?_, ?_⟩
  · intro hp
    have hdef : get_word_definition (strip rawWord)
        (detect_language (strip rawWord)) provider = "查詢時發生錯誤: " ++ e := by
      simp only [get_word_definition]
      rw [hp]
    refine ⟨?_, hstart e, ?_⟩
    · simp only [lookup_word]
      simp [hw, hdef]
    · simp only [lookup_word]
      simp [hw, hdef, hstart e]
  · intro hmark
    simp only [lookup_word]
    simp [hw, hmark]
  · intro hmark
    simp only [lookup_word]
    simp [hw, hmark]

/-- C5 witness: a provider failure "boom" on the word "test" in the empty
store yields the marked error definition and writes nothing. -/
theorem c5_provider_failure_not_persisted_witness :
    (lookup_word emptyDB 3 " test " none (fun _ => Except.error "boom")
        false).2 =
      Except.ok
        { word := "test"
          language := "english"
          definition := "查詢時發生錯誤: boom" } ∧
    (lookup_word emptyDB 3 " test " none (fun _ => Except.error "boom")
        false).1 = emptyDB := by
  have h := (c5_provider_failure_not_persisted emptyDB 3 " test " none
    (fun _ => Except.error "boom") false "boom" (by decide)).1 rfl
  exact ⟨h.1, h.2.2⟩

/-- C6 counterexample: a commit exception during `authenticate_user` for the
active user "alice" is caught and converted to the generic failure with the
committed store unchanged, but — the claim requiring a rollback
notwithstanding — the handler performs no rollback, so the session is left
with the last-login change still pending. -/
theorem c6_counterexample_no_rollback_in_authenticate :
    (authenticate_user sampleDB 5 "alice" "pw123" true).value =
      ((none : Option UserRow), "登入失敗，請稍後再試") ∧
    (authenticate_user sampleDB 5 "alice" "pw123" true).committed =
      sampleDB ∧
    (authenticate_user sampleDB 5 "alice" "pw123" true).pending ≠ none := by
  exact ⟨by decide, by decide, by decide⟩

/-- C6 (amended): an unexpected persistence exception in any of the four
store operations is caught inside the operation and converted to the generic
failure signal (false, empty list, or none-user with a generic message) with
the committed store left unchanged; `save_word_record` and `create_user`
roll the session back and `get_query_history` has nothing to roll back,
while `authenticate_user` — whose handler lacks a rollback — instead leaves
the last-login modification pending in the session. -/
theorem c6_amended_storage_errors_caught (db : DB) (now limit : Nat)
    (word language definition username email password identifier pw : String)
    (u : Option Nat) (dn : Option String) :
    save_word_record db now word language definition u true =
      ⟨db, none, false⟩ ∧
    get_query_history db limit u true = ⟨db, none, []⟩ ∧
    (find_by_username db username = none → find_by_email db email = none →
      create_user db now username email password dn true =
        ⟨db, none, (false, "註冊失敗，請稍後再試")⟩) ∧
    (∀ usr : UserRow,
      (find_by_username db identifier = some usr ∨
        (find_by_username db identifier = none ∧
          find_by_email db identifier = some usr)) →
      usr.check_password pw = true → usr.is_active = true →
      authenticate_user db now identifier pw true =
        ⟨db,
          some
            { db with
              users := updateFirst (fun v => v.id == usr.id)
                (fun _ => { usr with last_login := some now }) db.users },
          (none, "登入失敗，請稍後再試")⟩) := by
  refine ⟨rfl, rfl, ?_, ?_⟩
  · intro h1 h2
    simp [create_user, h1, h2]
  · intro usr hu hpw hact
    rcases hu with h | ⟨h1, h2⟩
    · simp [authenticate_user, h, hpw, hact]
    · simp [authenticate_user, h1, h2, hpw, hact]

/-- C6 witness: on the sample store, a commit exception in a save, in a
registration of a fresh user, and in a login of the active user "alice" each
yield the generic failure with the committed store unchanged, the first two
rolled back and the login left pending. -/
theorem c6_amended_storage_errors_caught_witness :
    save_word_record sampleDB 5 "w" "english" "d" none true =
      ⟨sampleDB, none, false⟩ ∧
    create_user sampleDB 5 "carol" "carol@example.com" "pw" none true =
      ⟨sampleDB, none, (false, "註冊失敗，請稍後再試")⟩ ∧
    authenticate_user sampleDB 5 "alice" "pw123" true =
      ⟨sampleDB,
        some
          { sampleDB with
            users := updateFirst (fun v => v.id == aliceRow.id)
              (fun _ => { aliceRow with last_login := some 5 })
              sampleDB.users },
        (none, "登入失敗，請稍後再試")⟩ := by
  have h := c6_amended_storage_errors_caught sampleDB 5 20 "w" "english" "d"
    "carol" "carol@example.com" "pw" "alice" "pw123" none none
  exact ⟨h.1, h.2.2.1 (by decide) (by decide),
    h.2.2.2 aliceRow (Or.inl (by decide)) (by decide) (by decide)⟩

end AiDict
